import Mathlib

/-!
Verification of the finance-agent repository: a shallow embedding of the
plan-execute loop (decision.py, action.py, main.py) and proofs about the
claims of the specification.

Python values exchanged between components are JSON-like; they are embedded
as the inductive type `Value`, with numbers as exact rationals.  Python
dictionaries are embedded as association lists with string keys (Python
dicts preserve insertion order and have unique keys).  Fallible Python code
(code that may raise) is embedded as `Except String _`, where the `error`
case carries the exception description.
-/

set_option maxHeartbeats 1000000

namespace FinanceAgent

/-- JSON-like Python value: None, bool, number (exact rational), string,
list, or string-keyed dict (association list, insertion order preserved). -/
inductive Value where
  | null : Value
  | bool : Bool → Value
  | num : ℚ → Value
  | str : String → Value
  | list : List Value → Value
  | dict : List (String × Value) → Value

/-- First-match lookup in an association list, mirroring Python dict access
(dicts in the source have unique keys). -/
def lookupV {α : Type} : List (String × α) → String → Option α
  | [], _ => none
  | (k, v) :: rest, key => if k = key then some v else lookupV rest key

/-- Python `key in dict`. -/
def containsK {α : Type} (l : List (String × α)) (k : String) : Bool :=
  (lookupV l k).isSome

/-- Python truthiness test used by `if not period:` in `get_financial_data`. -/
def isFalsy : Value → Bool
  | Value.null => true
  | Value.bool b => !b
  | Value.num q => q == 0
  | Value.str s => s.isEmpty
  | Value.list xs => xs.isEmpty
  | Value.dict d => d.isEmpty

/-- Python `isinstance(v, (int, float))`; note `bool` is a subclass of `int`. -/
def Value.isNum : Value → Bool
  | Value.num _ => true
  | Value.bool _ => true
  | _ => false

/-- Numeric coercion of a Python value (bools coerce to 0/1 in arithmetic). -/
def toNum : Value → Option ℚ
  | Value.num q => some q
  | Value.bool b => some (if b then 1 else 0)
  | _ => none

/-- Python `str(v)`, only to the fidelity needed by the error messages of
`get_financial_data` (number rendering is approximate; no claim inspects it). -/
def pyStr : Value → String
  | Value.null => "None"
  | Value.bool b => if b then "True" else "False"
  | Value.num q => toString q
  | Value.str s => s
  | Value.list _ => "[...]"
  | Value.dict _ => "dict"

/-- Structured domain-error value returned by the tools: Python
`{"error": reason}` (action.py). -/
def errV (m : String) : Value := Value.dict [("error", Value.str m)]

/-- Python `needle in hay` on strings (substring test), used by the year
filter of `get_financial_data`. -/
def substrB (needle hay : String) : Bool := decide (needle.toList <:+: hay.toList)

/-! ### The hardcoded data table (action.py, DUMMY_DATA) -/

/-- One quarter of the dummy table: revenue / investment / profit / expenses. -/
def qd (rev inv prof exps : ℚ) : Value :=
  Value.dict [("revenue", Value.num rev), ("investment", Value.num inv),
              ("profit", Value.num prof), ("expenses", Value.num exps)]

/-- AAPL rows of DUMMY_DATA. -/
def AAPL_data : List (String × Value) :=
  [("Q1_2023", qd 94.8 25.1 24.2 70.6), ("Q2_2023", qd 81.8 23.8 19.9 61.9),
   ("Q3_2023", qd 89.5 24.3 22.6 66.9), ("Q4_2023", qd 119.6 27.5 33.9 85.7),
   ("Q1_2024", qd 90.8 24.6 23.1 67.7), ("Q2_2024", qd 85.3 24.1 21.5 63.8)]

/-- MSFT rows of DUMMY_DATA. -/
def MSFT_data : List (String × Value) :=
  [("Q1_2023", qd 52.7 15.3 18.3 34.4), ("Q2_2023", qd 56.2 16.1 20.1 36.1),
   ("Q3_2023", qd 56.5 16.3 20.5 36.0), ("Q4_2023", qd 62.0 17.5 21.9 40.1),
   ("Q1_2024", qd 61.9 17.2 21.8 40.1), ("Q2_2024", qd 64.7 18.1 22.5 42.2)]

/-- AMZN rows of DUMMY_DATA. -/
def AMZN_data : List (String × Value) :=
  [("Q1_2023", qd 127.4 42.5 3.2 124.2), ("Q2_2023", qd 134.4 44.8 6.7 127.7),
   ("Q3_2023", qd 143.1 47.2 9.9 133.2), ("Q4_2023", qd 169.9 52.3 10.6 159.3),
   ("Q1_2024", qd 143.3 46.8 10.4 132.9), ("Q2_2024", qd 148.2 48.1 13.7 134.5)]

/-- DUMMY_DATA: symbol → (quarter label → metrics dict). -/
def DUMMY_DATA : List (String × List (String × Value)) :=
  [("AAPL", AAPL_data), ("MSFT", MSFT_data), ("AMZN", AMZN_data)]

/-! ### Tool functions (action.py) -/

/-- Python equality of a value against a string literal (cross-type `==`
between a non-string and a string is `False`, no exception). -/
def pyEqStr : Value → String → Bool
  | Value.str t, s => t == s
  | _, _ => false

/-- Python `v in ["2023", "2024"]` style membership in a string list. -/
def pyInStrList (v : Value) (l : List String) : Bool := l.any (pyEqStr v)

/-- get_financial_data(symbol, period=None) from action.py.  The `error`
case of the `Except` is a raised Python exception (e.g. `symbol in
DUMMY_DATA` with an unhashable symbol raises TypeError); `ok` results are
the returned dict, including the `errV` domain-error dicts. -/
def get_financial_data (symbol period : Value) : Except String Value :=
  match symbol with
  | Value.list _ => Except.error "TypeError: unhashable type list"
  | Value.dict _ => Except.error "TypeError: unhashable type dict"
  | Value.str s =>
    match lookupV DUMMY_DATA s with
    | none => Except.ok (errV ("No data available for symbol " ++ s))
    | some tbl =>
      if isFalsy period then Except.ok (Value.dict tbl)
      else if pyInStrList period ["2023", "2024"] then
        match period with
        | Value.str y => Except.ok (Value.dict (tbl.filter fun q => substrB y q.1))
        | _ => Except.ok (Value.dict [])
      else
        match period with
        | Value.list _ => Except.error "TypeError: unhashable type list"
        | Value.dict _ => Except.error "TypeError: unhashable type dict"
        | Value.str p =>
          match lookupV tbl p with
          | some d => Except.ok (Value.dict [(p, d)])
          | none => Except.ok (errV ("No data available for period " ++ p))
        | v => Except.ok (errV ("No data available for period " ++ pyStr v))
  | v => Except.ok (errV ("No data available for symbol " ++ pyStr v))

/-- One pair of the ROI computation: Python
`((r - i) / i) * 100 if i > 0 else 0`.  The comparison `i > 0` is evaluated
first and raises TypeError on a non-number; when it is positive the
arithmetic on `r` may raise TypeError on a non-number. -/
def roiPair (r i : Value) : Except String Value :=
  match toNum i with
  | none => Except.error "TypeError: unsupported comparison with int"
  | some iq =>
    if 0 < iq then
      match toNum r with
      | none => Except.error "TypeError: unsupported operand types"
      | some rq => Except.ok (Value.num ((rq - iq) / iq * 100))
    else Except.ok (Value.num 0)

/-- The list comprehension of calculate_roi over zipped lists (evaluated
left to right, stopping at the first raising pair). -/
def roiElems : List Value → List Value → Except String (List Value)
  | [], _ => Except.ok []
  | _ :: _, [] => Except.ok []
  | r :: rs, i :: is2 =>
    match roiPair r i with
    | Except.error e => Except.error e
    | Except.ok y =>
      match roiElems rs is2 with
      | Except.error e => Except.error e
      | Except.ok ys => Except.ok (y :: ys)

/-- calculate_roi(revenue, investment) from action.py. -/
def calculate_roi (revenue investment : Value) : Except String Value :=
  match revenue, investment with
  | Value.list rs, Value.list is2 =>
    if rs.length ≠ is2.length then
      Except.ok (errV "Revenue and investment lists must be the same length")
    else
      match roiElems rs is2 with
      | Except.error e => Except.error e
      | Except.ok ys => Except.ok (Value.list ys)
  | r, i =>
    if r.isNum && i.isNum then roiPair r i
    else Except.ok (errV "Invalid input types for revenue and investment")

/-- One division of the inflation adjustment: Python `value / (1 + rate)`.
`1 + rate` raises TypeError on a non-numeric rate, the division raises
TypeError on a non-numeric value and ZeroDivisionError when `1 + rate = 0`. -/
def divV (v rate : Value) : Except String Value :=
  match toNum rate with
  | none => Except.error "TypeError: unsupported operand types for +"
  | some rq =>
    match toNum v with
    | none => Except.error "TypeError: unsupported operand types for /"
    | some vq =>
      if 1 + rq = 0 then Except.error "ZeroDivisionError: division by zero"
      else Except.ok (Value.num (vq / (1 + rq)))

/-- The list comprehension of apply_inflation_adjustment. -/
def adjustElems (rate : Value) : List Value → Except String (List Value)
  | [] => Except.ok []
  | v :: vs =>
    match divV v rate with
    | Except.error e => Except.error e
    | Except.ok y =>
      match adjustElems rate vs with
      | Except.error e => Except.error e
      | Except.ok ys => Except.ok (y :: ys)

/-- apply_inflation_adjustment(values, rate) from action.py. -/
def apply_inflation_adjustment (values rate : Value) : Except String Value :=
  match values with
  | Value.list vs =>
    match adjustElems rate vs with
    | Except.error e => Except.error e
    | Except.ok ys => Except.ok (Value.list ys)
  | v =>
    if v.isNum then divV v rate
    else Except.ok (errV "Invalid input type for values")

/-! ### Dispatch (action.py, execute_action) -/

/-- Tool Result (action.py, ActionOutput): `{success, result, message}`. -/
structure ActionOutput where
  success : Bool
  result : List (String × Value)
  message : String

/-- Keyword-argument binding check: Python `f(**params)` raises TypeError if
a key is not a declared parameter name. -/
def kwOk (params : List (String × Value)) (allowed : List String) : Bool :=
  params.all fun p => allowed.contains p.1

/-- The call `get_financial_data(**params)`: `symbol` required, `period`
optional with default None. -/
def call_gfd (params : List (String × Value)) : Except String Value :=
  if !(kwOk params ["symbol", "period"]) then
    Except.error "TypeError: unexpected keyword argument"
  else
    match lookupV params "symbol" with
    | none => Except.error "TypeError: missing required argument symbol"
    | some sym => get_financial_data sym ((lookupV params "period").getD Value.null)

/-- The call `calculate_roi(**params)`: both arguments required. -/
def call_roi (params : List (String × Value)) : Except String Value :=
  if !(kwOk params ["revenue", "investment"]) then
    Except.error "TypeError: unexpected keyword argument"
  else
    match lookupV params "revenue", lookupV params "investment" with
    | some r, some i => calculate_roi r i
    | _, _ => Except.error "TypeError: missing required argument"

/-- The call `apply_inflation_adjustment(**params)`: both arguments required. -/
def call_infl (params : List (String × Value)) : Except String Value :=
  if !(kwOk params ["values", "rate"]) then
    Except.error "TypeError: unexpected keyword argument"
  else
    match lookupV params "values", lookupV params "rate" with
    | some v, some r => apply_inflation_adjustment v r
    | _, _ => Except.error "TypeError: missing required argument"

/-- The if/elif chain of execute_action.  `none` is the `else` branch
(unknown tool).  The `generate_chart` branch references a name that is
defined nowhere in the repository, so evaluating the call expression raises
NameError before any argument binding. -/
def dispatch (fn : String) (params : List (String × Value)) :
    Option (Except String Value) :=
  if fn = "get_financial_data" then some (call_gfd params)
  else if fn = "calculate_roi" then some (call_roi params)
  else if fn = "apply_inflation_adjustment" then some (call_infl params)
  else if fn = "generate_chart" then
    some (Except.error "NameError: name generate_chart is not defined")
  else none

/-- execute_action from action.py: a raised exception is caught and becomes
`success = False` with the exception text as message; an unknown function
name becomes `success = False`; any returned value (including the
`{"error": ...}` domain-error dicts) becomes `success = True` with the
result keyed by the function name. -/
def execute_action (fn : String) (params : List (String × Value)) : ActionOutput :=
  match dispatch fn params with
  | none => ⟨false, [], "Unknown tool " ++ fn⟩
  | some (Except.ok res) => ⟨true, [(fn, res)], fn ++ " executed."⟩
  | some (Except.error e) => ⟨false, [], e⟩

/-! ### Planner (decision.py, decide_next_step) -/

/-- Planned Step (decision.py, Step). -/
structure Step where
  function_name : String
  parameters : List (String × Value)

/-- Planner output (decision.py, DecisionOutput). -/
structure DecisionOutput where
  next_step : Option Step
  done : Bool
  rationale : Option String

/-- The allowed function names (decision.py, AllowedFn). -/
def allowedFns : List String :=
  ["get_financial_data", "calculate_roi", "apply_inflation_adjustment", "generate_chart"]

/-- Outcome of the single collaborator call made by decide_next_step, after
code-fence stripping: the call raised (`fault`), the stripped text failed
`json.loads` (`badJson`), or it decoded to a JSON object (`json`). -/
inductive LLMOutcome where
  | fault (msg : String)
  | badJson (msg : String)
  | json (data : List (String × Value))

/-- decide_next_step from decision.py, as a function of the outcome of its
one collaborator call (the prompt inputs do not influence the parsing).  A
raised fault anywhere in the `try` block — the call itself, `json.loads`,
or `Step` validation (a `function_name` outside the enum or non-dict
`parameters`) — is caught and yields done with the exception text; an empty
object or one without `"function_name"` yields done with
"All steps completed".  There is no retry and no failure state: the
DecisionOutput carries only the `done` flag. -/
def decide_next_step (resp : LLMOutcome) : DecisionOutput :=
  match resp with
  | LLMOutcome.fault m => ⟨none, true, some ("LLM decision failed: " ++ m)⟩
  | LLMOutcome.badJson m => ⟨none, true, some ("LLM decision failed: " ++ m)⟩
  | LLMOutcome.json data =>
    if data.isEmpty || !(containsK data "function_name") then
      ⟨none, true, some "All steps completed"⟩
    else
      match lookupV data "function_name" with
      | some (Value.str fn) =>
        if allowedFns.contains fn then
          match lookupV data "parameters" with
          | none => ⟨some ⟨fn, []⟩, false, some "Next actionable step"⟩
          | some (Value.dict d) => ⟨some ⟨fn, d⟩, false, some "Next actionable step"⟩
          | some _ => ⟨none, true, some "LLM decision failed: validation error for Step"⟩
        else ⟨none, true, some "LLM decision failed: validation error for Step"⟩
      | some _ => ⟨none, true, some "LLM decision failed: validation error for Step"⟩
      | none => ⟨none, true, some "All steps completed"⟩

/-! ### Parameter Resolver (main.py, resolve_params_with_llm) -/

/-- Python `context.get(x, x)` on a list element: hashing an unhashable
element (list/dict) raises TypeError; a string element is looked up in the
context (string keys), every other scalar is returned unchanged. -/
def ctxGet (context : List (String × Value)) (x : Value) : Except String Value :=
  match x with
  | Value.list _ => Except.error "TypeError: unhashable type list"
  | Value.dict _ => Except.error "TypeError: unhashable type dict"
  | Value.str s => Except.ok ((lookupV context s).getD (Value.str s))
  | v => Except.ok v

/-- The list comprehension `[context.get(x, x) for x in v]`. -/
def getElems (context : List (String × Value)) : List Value → Except String (List Value)
  | [] => Except.ok []
  | x :: xs =>
    match ctxGet context x with
    | Except.error e => Except.error e
    | Except.ok y =>
      match getElems context xs with
      | Except.error e => Except.error e
      | Except.ok ys => Except.ok (y :: ys)

/-- Step 1 of resolve_params_with_llm: one pass over the parameters,
splitting them into the `resolved` and `unresolved` dicts.  A string value
that is a context key resolves to the stored value; a list value resolves
elementwise by `context.get(x, x)`; everything else is unresolved. -/
def splitResolve (context : List (String × Value)) :
    List (String × Value) → Except String (List (String × Value) × List (String × Value))
  | [] => Except.ok ([], [])
  | (k, v) :: rest =>
    match v with
    | Value.str s =>
      if containsK context s then
        match splitResolve context rest with
        | Except.ok (r, u) => Except.ok ((k, (lookupV context s).getD Value.null) :: r, u)
        | Except.error e => Except.error e
      else
        match splitResolve context rest with
        | Except.ok (r, u) => Except.ok (r, (k, Value.str s) :: u)
        | Except.error e => Except.error e
    | Value.list xs =>
      match getElems context xs with
      | Except.error e => Except.error e
      | Except.ok ys =>
        match splitResolve context rest with
        | Except.ok (r, u) => Except.ok ((k, Value.list ys) :: r, u)
        | Except.error e => Except.error e
    | v2 =>
      match splitResolve context rest with
      | Except.ok (r, u) => Except.ok (r, (k, v2) :: u)
      | Except.error e => Except.error e

/-- The semantic-matching collaborator of resolve_params_with_llm: from the
unresolved dict to either a raised fault / parse failure (`error`) or the
decoded JSON object. -/
def LLMFn := List (String × Value) → Except String (List (String × Value))

/-- The `try/except` around the collaborator call: on any failure
`llm_result = {}`. -/
def llmResultOf (llm : LLMFn) (unres : List (String × Value)) : List (String × Value) :=
  match llm unres with
  | Except.ok r => r
  | Except.error _ => []

/-- One entry of the early return `{**params, **resolved}`: the resolved
value if present, else the original. -/
def earlyEntry (resolved : List (String × Value)) (p : String × Value) : String × Value :=
  (p.1, (lookupV resolved p.1).getD p.2)

/-- The early return `{**params, **resolved}` (resolved keys are a subset
of params keys, so this is params with resolved values substituted). -/
def earlyMerge (params resolved : List (String × Value)) : List (String × Value) :=
  params.map (earlyEntry resolved)

/-- One entry of step 3 of resolve_params_with_llm: the resolved value
wins; otherwise a non-null collaborator answer is taken; otherwise the
original value. -/
def mergeEntry (resolved llmr : List (String × Value)) (p : String × Value) : String × Value :=
  match lookupV resolved p.1 with
  | some w => (p.1, w)
  | none =>
    match lookupV llmr p.1 with
    | some Value.null => p
    | some w => (p.1, w)
    | none => p

/-- Step 3 of resolve_params_with_llm over all parameters. -/
def mergeParams (params resolved llmr : List (String × Value)) : List (String × Value) :=
  params.map (mergeEntry resolved llmr)

/-- resolve_params_with_llm from main.py.  The `error` case is a raised
TypeError from hashing an unhashable list element in step 1 (which
propagates out of the function — only the collaborator call is inside a
`try`). -/
def resolve_params_with_llm (params context : List (String × Value)) (llm : LLMFn) :
    Except String (List (String × Value)) :=
  match splitResolve context params with
  | Except.error e => Except.error e
  | Except.ok (resolved, unresolved) =>
    if unresolved.isEmpty || context.isEmpty then
      Except.ok (earlyMerge params resolved)
    else
      Except.ok (mergeParams params resolved (llmResultOf llm unresolved))

/-! ### Loop Driver (main.py, main) -/

/-- Python dict assignment `ctx[k] = v`: overwrite in place if the key
exists (keeping insertion order), else append at the end. -/
def setKey : List (String × Value) → String → Value → List (String × Value)
  | [], k, v => [(k, v)]
  | (k1, v1) :: rest, k, v =>
    if k1 = k then (k, v) :: rest else (k1, v1) :: setKey rest k v

/-- Python `ctx.update(entries)`: assign each entry in order. -/
def updAll : List (String × Value) → List (String × Value) → List (String × Value)
  | ctx, [] => ctx
  | ctx, e :: rest => updAll (setKey ctx e.1 e.2) rest

/-- flatten_dict from main.py: nested dict values are flattened recursively
with `_`-joined key paths. -/
def flattenDict (pre : String) : List (String × Value) → List (String × Value)
  | [] => []
  | (k, Value.dict d) :: rest =>
    flattenDict (pre ++ "_" ++ k) d ++ flattenDict pre rest
  | (k, v) :: rest => (pre ++ "_" ++ k, v) :: flattenDict pre rest

/-- The context update after a successful tool call (main.py): dict results
are flattened under the output key before merging, scalar results are
assigned directly. -/
def applyResult (ctx : List (String × Value)) :
    List (String × Value) → List (String × Value)
  | [] => ctx
  | (key, Value.dict d) :: rest => applyResult (updAll ctx (flattenDict key d)) rest
  | (key, v) :: rest => applyResult (setKey ctx key v) rest

/-- The mutable state of one run of the loop in main.py: the Context Store,
the executed-steps sequence, and the collected tool results. -/
structure LoopState where
  context : List (String × Value)
  executed : List Step
  results : List ActionOutput

/-- The external events consumed by one loop iteration: the planner
planner collaborator response and the semantic-matching collaborator used by the
parameter resolver. -/
structure IterInput where
  planner : LLMOutcome
  resolver : LLMFn

/-- One iteration of the while-loop of main.py.  `none` means the loop does
not continue from this state: either the planner reported done (the normal
`break`) or an uncaught exception escaped (a raised TypeError from
parameter resolution).  Otherwise the step is executed, appended exactly
once to the executed-steps sequence, and on success with a non-empty result
the Context Store is updated (and then persisted, modeled by the returned
context value itself). -/
def loopStep (st : LoopState) (inp : IterInput) : Option LoopState :=
  let d := decide_next_step inp.planner
  if d.done then none
  else
    match d.next_step with
    | none => none
    | some s =>
      match resolve_params_with_llm s.parameters st.context inp.resolver with
      | Except.error _ => none
      | Except.ok rp =>
        let ao := execute_action s.function_name rp
        some
          { context :=
              if ao.success && !ao.result.isEmpty then applyResult st.context ao.result
              else st.context
            executed := st.executed ++ [s]
            results := st.results ++ [ao] }

/-- The whole loop, consuming a finite trace of external events (the loop
stops at the first iteration whose planner says done or that aborts). -/
def runLoop (st : LoopState) : List IterInput → LoopState
  | [] => st
  | inp :: rest =>
    match loopStep st inp with
    | none => st
    | some st2 => runLoop st2 rest

/-! ### Derived notions used by the theorem statements -/

/-- The collaborator outcomes that the claim about planner error handling
ranges over: a raised fault, an undecodable response, or a decoded object
that is empty or lacks a function name. -/
def plannerBad : LLMOutcome → Prop
  | LLMOutcome.fault _ => True
  | LLMOutcome.badJson _ => True
  | LLMOutcome.json d => d.isEmpty = true ∨ containsK d "function_name" = false

/-- A list element that Python can hash (hashing a list/dict raises). -/
def hashableElem : Value → Bool
  | Value.list _ => false
  | Value.dict _ => false
  | _ => true

/-- A parameter value on which step 1 of the resolver cannot raise: any
non-list value, or a list of hashable elements. -/
def listHashable : Value → Bool
  | Value.list xs => xs.all hashableElem
  | _ => true

/-- Total version of `context.get(x, x)` for hashable elements. -/
def elemGet (context : List (String × Value)) : Value → Value
  | Value.str s => (lookupV context s).getD (Value.str s)
  | v => v

/-- The entry that step 1 puts into the `resolved` dict for a given
parameter, if any. -/
def resolvedEntry (context : List (String × Value)) (p : String × Value) :
    Option (String × Value) :=
  match p.2 with
  | Value.str s => (lookupV context s).map fun w => (p.1, w)
  | Value.list xs => some (p.1, Value.list (xs.map (elemGet context)))
  | _ => none

/-- The parameters that step 1 leaves in the `unresolved` dict (escalated
to the semantic-matching collaborator): non-list values that are not a
string naming a context key. -/
def escalatedB (context : List (String × Value)) : Value → Bool
  | Value.str s => !containsK context s
  | Value.list _ => false
  | _ => true

/-- The output of the resolver, expressed directly in terms of the two dicts of
step 1 (proved equal to `resolve_params_with_llm` for raise-free inputs). -/
def resolverOut (params context : List (String × Value)) (llm : LLMFn) :
    List (String × Value) :=
  if (params.filter fun p => escalatedB context p.2).isEmpty || context.isEmpty then
    earlyMerge params (params.filterMap (resolvedEntry context))
  else
    mergeParams params (params.filterMap (resolvedEntry context))
      (llmResultOf llm (params.filter fun p => escalatedB context p.2))

/-- A list element that is both hashable and not a placeholder (not a
string naming a context key), so `context.get(x, x)` returns it unchanged. -/
def elemResolvedB (context : List (String × Value)) : Value → Bool
  | Value.str s => !containsK context s
  | Value.list _ => false
  | Value.dict _ => false
  | _ => true

/-- A parameter value with no remaining placeholder: not a string naming a
context key, and, if a list, made of hashable elements none of which names
a context key.  This is the "already fully resolved" hypothesis of the
idempotence claim. -/
def fullyResolvedV (context : List (String × Value)) : Value → Bool
  | Value.str s => !containsK context s
  | Value.list xs => xs.all (elemResolvedB context)
  | _ => true

/-- Concrete start state for exercising the loop invariant. -/
def loopWitnessState : LoopState :=
  { context := [("inflation_rates_2024", Value.num 0.031)], executed := [], results := [] }

/-- Concrete one-iteration trace for exercising the loop invariant. -/
def loopWitnessTrace : List IterInput :=
  [{ planner := LLMOutcome.json [("function_name", Value.str "calculate_roi")],
     resolver := fun _ => Except.ok [] }]

/-! ### Association-list lemmas -/

theorem lookupV_mem {α : Type} {l : List (String × α)} {k : String} {v : α} (h : lookupV l k = some v) : (k, v) ∈ l := by
  induction l with
  | nil => simp [lookupV] at h
  | cons p rest ih =>
    obtain ⟨k1, v1⟩ := p
    by_cases hk : k1 = k
    · subst hk
      simp [lookupV] at h
      simp [h]
    · simp [lookupV, hk] at h
      exact List.mem_cons_of_mem _ (ih h)

theorem lookupV_eq_none {α : Type} {l : List (String × α)} {k : String} (h : k ∉ l.map Prod.fst) : lookupV l k = none := by
  induction l with
  | nil => rfl
  | cons p rest ih =>
    simp only [List.map_cons, List.mem_cons, not_or] at h
    have h1 : p.1 ≠ k := fun he => h.1 he.symm
    simp [lookupV, h1, ih h.2]

theorem lookupV_append_left {α : Type} {l l2 : List (String × α)} {k : String} {v : α} (h : lookupV l k = some v) : lookupV (l ++ l2) k = some v := by
  induction l with
  | nil => simp [lookupV] at h
  | cons p rest ih =>
    by_cases hk : p.1 = k
    · simp_all [lookupV]
    · simp_all [lookupV, hk]

theorem lookupV_append_none {α : Type} {l l2 : List (String × α)} {k : String} (h : lookupV l k = none) : lookupV (l ++ l2) k = lookupV l2 k := by
  induction l with
  | nil => rfl
  | cons p rest ih =>
    by_cases hk : p.1 = k
    · simp_all [lookupV]
    · simp_all [lookupV, hk]

theorem lookupV_of_mem_nodup {α : Type} {l : List (String × α)} {k : String} {v : α} (hnd : (l.map Prod.fst).Nodup) (h : (k, v) ∈ l) : lookupV l k = some v := by
  induction l with
  | nil => simp at h
  | cons p rest ih =>
    simp only [List.map_cons, List.nodup_cons] at hnd
    rcases List.mem_cons.mp h with h1 | h1
    · subst h1
      simp [lookupV]
    · have hk : p.1 ≠ k := by
        intro he
        exact hnd.1 (he ▸ List.mem_map_of_mem Prod.fst h1)
      simp [lookupV, hk, ih hnd.2 h1]

theorem lookupV_map_entry {l : List (String × Value)} (g : String × Value → Value) {k : String} {v : Value} (h : lookupV l k = some v) :
    lookupV (l.map fun p => (p.1, g p)) k = some (g (k, v)) := by
  induction l with
  | nil => simp [lookupV] at h
  | cons p rest ih =>
    by_cases hk : p.1 = k
    · obtain ⟨k1, v1⟩ := p
      subst hk
      simp [lookupV] at h
      subst h
      simp [lookupV]
    · simp [lookupV, hk] at h
      simp [lookupV, hk, ih h]

theorem lookupV_filterMap_none {l : List (String × Value)} {g : String × Value → Option (String × Value)} (hg : ∀ p q, g p = some q → q.1 = p.1) {k : String} (h : k ∉ l.map Prod.fst) :
    lookupV (l.filterMap g) k = none := by
  induction l with
  | nil => rfl
  | cons p rest ih =>
    simp only [List.map_cons, List.mem_cons, not_or] at h
    rw [List.filterMap_cons]
    cases hgp : g p with
    | none => exact ih h.2
    | some q =>
      have : q.1 ≠ k := by
        rw [hg p q hgp]
        exact fun he => h.1 he.symm
      simp [lookupV, this, ih h.2]

theorem lookupV_filterMap {l : List (String × Value)} {g : String × Value → Option (String × Value)} (hg : ∀ p q, g p = some q → q.1 = p.1) (hnd : (l.map Prod.fst).Nodup) {k : String} {v : Value} (h : lookupV l k = some v) :
    lookupV (l.filterMap g) k = (g (k, v)).map Prod.snd := by
  induction l with
  | nil => simp [lookupV] at h
  | cons p rest ih =>
    obtain ⟨k1, v1⟩ := p
    simp only [List.map_cons, List.nodup_cons] at hnd
    rw [List.filterMap_cons]
    by_cases hk : k1 = k
    · subst hk
      have hv : v1 = v := by simpa [lookupV] using h
      subst hv
      cases hgp : g (k1, v1) with
      | none =>
        simp only [hgp]
        rw [lookupV_filterMap_none hg (by simpa using hnd.1)]
        simp [hgp]
      | some q =>
        have hq1 : q.1 = k1 := hg _ _ hgp
        simp only [hgp]
        obtain ⟨q1, q2⟩ := q
        simp only at hq1
        subst hq1
        simp [lookupV, hgp]
    · have h2 : lookupV rest k = some v := by simpa [lookupV, hk] using h
      cases hgp : g (k1, v1) with
      | none =>
        simp only [hgp]
        exact ih hnd.2 h2
      | some q =>
        have hq1 : q.1 = k1 := hg _ _ hgp
        simp only [hgp]
        obtain ⟨q1, q2⟩ := q
        simp only at hq1
        subst hq1
        simp [lookupV, hk, ih hnd.2 h2]

/-! ### Tool lemmas -/

theorem roiPair_num (r i : ℚ) :
    roiPair (Value.num r) (Value.num i) =
      Except.ok (Value.num (if 0 < i then (r - i) / i * 100 else 0)) := by
  by_cases h : 0 < i <;> simp [roiPair, toNum, h]

theorem roiElems_num (rs is2 : List ℚ) (h : rs.length = is2.length) :
    roiElems (rs.map Value.num) (is2.map Value.num) =
      Except.ok ((rs.zip is2).map fun p =>
        Value.num (if 0 < p.2 then (p.1 - p.2) / p.2 * 100 else 0)) := by
  induction rs generalizing is2 with
  | nil => cases is2 <;> simp [roiElems]
  | cons r rs ih =>
    cases is2 with
    | nil => simp at h
    | cons i is2 =>
      simp only [List.length_cons, Nat.succ_inj] at h
      simp [roiElems, roiPair_num, ih is2 h]

theorem divV_num (v r : ℚ) (hr : 1 + r ≠ 0) :
    divV (Value.num v) (Value.num r) = Except.ok (Value.num (v / (1 + r))) := by
  simp [divV, toNum, hr]

theorem adjustElems_num (qs : List ℚ) (r : ℚ) (hr : 1 + r ≠ 0) :
    adjustElems (Value.num r) (qs.map Value.num) =
      Except.ok (qs.map fun q => Value.num (q / (1 + r))) := by
  induction qs with
  | nil => rfl
  | cons q qs ih => simp [adjustElems, divV_num _ _ hr, ih]

/-- C4: for scalar numbers, `calculate_roi` returns
`(revenue - investment) / investment * 100` when the investment is
positive and `0` when it is not, and on matched-length numeric lists it
returns the elementwise per-pair ROI under the same rule. -/
theorem calculate_roi_formula :
    (∀ r i : ℚ, 0 < i → calculate_roi (Value.num r) (Value.num i) =
        Except.ok (Value.num ((r - i) / i * 100))) ∧
    (∀ r i : ℚ, i ≤ 0 → calculate_roi (Value.num r) (Value.num i) =
        Except.ok (Value.num 0)) ∧
    (∀ rs is2 : List ℚ, rs.length = is2.length →
      calculate_roi (Value.list (rs.map Value.num)) (Value.list (is2.map Value.num)) =
        Except.ok (Value.list ((rs.zip is2).map fun p =>
          Value.num (if 0 < p.2 then (p.1 - p.2) / p.2 * 100 else 0)))) := by
  refine ⟨?_, ?_, ?_⟩
  · intro r i hi
    simp [calculate_roi, Value.isNum, roiPair_num, hi]
  · intro r i hi
    simp [calculate_roi, Value.isNum, roiPair_num, not_lt.mpr hi]
  · intro rs is2 h
    simp [calculate_roi, h, roiElems_num rs is2 h]

/-- Witness for C4 at revenue 2, investment 1 (scalar) and a matched pair
of two-element lists. -/
theorem calculate_roi_formula_witness :
    calculate_roi (Value.num 2) (Value.num 1) = Except.ok (Value.num ((2 - 1) / 1 * 100)) ∧
    calculate_roi (Value.list [Value.num 2, Value.num 4]) (Value.list [Value.num 1, Value.num 2]) =
      Except.ok (Value.list (([(2, 1), (4, 2)] : List (ℚ × ℚ)).map fun p =>
        Value.num (if 0 < p.2 then (p.1 - p.2) / p.2 * 100 else 0))) :=
  ⟨calculate_roi_formula.1 2 1 (by norm_num),
   calculate_roi_formula.2.2 [2, 4] [1, 2] rfl⟩

/-- C7: on two lists of different lengths, `calculate_roi` returns the
structured error value (it never raises: the length check precedes the
elementwise arithmetic). -/
theorem calculate_roi_mismatched_lengths (rs is2 : List Value) (h : rs.length ≠ is2.length) :
    calculate_roi (Value.list rs) (Value.list is2) =
      Except.ok (errV "Revenue and investment lists must be the same length") := by
  simp [calculate_roi, h]

/-- Witness for C7 on a one-element and an empty list. -/
theorem calculate_roi_mismatched_lengths_witness :
    calculate_roi (Value.list [Value.num 1]) (Value.list []) =
      Except.ok (errV "Revenue and investment lists must be the same length") :=
  calculate_roi_mismatched_lengths [Value.num 1] [] (by decide)

/-- C10: every `execute_action` call naming `generate_chart` fails:
the dispatcher references a function defined nowhere in the repository, so
the call raises NameError, which the `except` converts into a failure
result with the exception text as the message. -/
theorem generate_chart_always_fails (params : List (String × Value)) :
    execute_action "generate_chart" params =
      ⟨false, [], "NameError: name generate_chart is not defined"⟩ := rfl

/-- C6 counterexample: `apply_inflation_adjustment` raises ZeroDivisionError
at rate −1 (`value / (1 + rate)` divides by zero), so the tool is not total
over every scalar value and rate; the exception escapes the function and is
converted to a failure only by the `except` of the dispatcher. -/
theorem inflation_adjust_raises_cex :
    apply_inflation_adjustment (Value.num 5) (Value.num (-1)) =
      Except.error "ZeroDivisionError: division by zero" := by
  simp [apply_inflation_adjustment, Value.isNum, divV, toNum]

/-- C6 (amended): `apply_inflation_adjustment` computes `value / (1 + rate)`
elementwise and never raises on numeric input when `1 + rate ≠ 0`, and it
returns the structured error value (not an exception) for a non-list,
non-numeric `values` argument; totality fails only for arithmetic faults
(rate −1, non-numeric elements), which the dispatcher turns into failure
results. -/
theorem inflation_adjust_amended (r : ℚ) (hr : 1 + r ≠ 0) :
    (∀ q : ℚ, apply_inflation_adjustment (Value.num q) (Value.num r) =
        Except.ok (Value.num (q / (1 + r)))) ∧
    (∀ qs : List ℚ, apply_inflation_adjustment (Value.list (qs.map Value.num)) (Value.num r) =
        Except.ok (Value.list (qs.map fun q => Value.num (q / (1 + r))))) ∧
    (∀ v rate : Value, v.isNum = false → (∀ xs, v ≠ Value.list xs) →
        apply_inflation_adjustment v rate = Except.ok (errV "Invalid input type for values")) := by
  refine ⟨?_, ?_, ?_⟩
  · intro q
    simp [apply_inflation_adjustment, Value.isNum, divV_num _ _ hr]
  · intro qs
    simp [apply_inflation_adjustment, adjustElems_num qs r hr]
  · intro v rate hnum hlist
    cases v with
    | list xs => exact absurd rfl (hlist xs)
    | null => rfl
    | str s => rfl
    | dict d => rfl
    | bool b => simp [Value.isNum] at hnum
    | num q => simp [Value.isNum] at hnum

/-- Witness for the amended C6 at value 10, rate 0. -/
theorem inflation_adjust_amended_witness :
    apply_inflation_adjustment (Value.num 10) (Value.num 0) =
      Except.ok (Value.num (10 / (1 + 0))) :=
  (inflation_adjust_amended 0 (by norm_num)).1 10

/-- C1: whenever the single collaborator call of the planner raises a fault, or
its response fails to decode, or decodes to an empty object or one without
a function name, `decide_next_step` reports done with a rationale (there is
no FAILED state — `DecisionOutput` carries only the `done` flag — and no
retry — exactly one collaborator outcome is consumed); the description of
a raised fault is carried in the rationale. -/
theorem decide_next_step_lenient (o : LLMOutcome) (h : plannerBad o) :
    (decide_next_step o).done = true ∧
    (decide_next_step o).next_step = none ∧
    ((decide_next_step o).rationale).isSome = true ∧
    (∀ m, o = LLMOutcome.fault m →
      (decide_next_step o).rationale = some ("LLM decision failed: " ++ m)) := by
  cases o with
  | fault m =>
    refine ⟨rfl, rfl, rfl, ?_⟩
    intro m' hm
    cases hm
    rfl
  | badJson m =>
    refine ⟨rfl, rfl, rfl, ?_⟩
    intro m' hm
    cases hm
  | json d =>
    have hcond : (d.isEmpty || !(containsK d "function_name")) = true := by
      rcases h with h | h <;> simp [h]
    refine ⟨?_, ?_, ?_, ?_⟩
    · simp [decide_next_step, hcond]
    · simp [decide_next_step, hcond]
    · simp [decide_next_step, hcond]
    · intro m hm
      cases hm

/-- Witness for C1 at a concrete raised fault. -/
theorem decide_next_step_lenient_witness :
    (decide_next_step (LLMOutcome.fault "boom")).done = true ∧
    (decide_next_step (LLMOutcome.fault "boom")).rationale = some "LLM decision failed: boom" :=
  ⟨(decide_next_step_lenient (LLMOutcome.fault "boom") trivial).1,
   (decide_next_step_lenient (LLMOutcome.fault "boom") trivial).2.2.2 "boom" rfl⟩

/-- C5 counterexample: two periods contradict the claim.  An empty-string
period is an unmatched period yet returns ALL periods for the symbol (the
truthiness test `if not period` treats it as omitted) instead of an error
value; and "2025" is a 4-digit year yet yields the error value instead of
the (empty) set of quarters whose label contains it, because the code
recognizes only the literal years "2023" and "2024". -/
theorem get_financial_data_period_cex :
    get_financial_data (Value.str "AAPL") (Value.str "") = Except.ok (Value.dict AAPL_data) ∧
    AAPL_data.map Prod.fst =
      ["Q1_2023", "Q2_2023", "Q3_2023", "Q4_2023", "Q1_2024", "Q2_2024"] ∧
    get_financial_data (Value.str "AAPL") (Value.str "2025") =
      Except.ok (errV "No data available for period 2025") ∧
    AAPL_data.filter (fun q => substrB "2025" q.1) = [] ∧
    errV "No data available for period 2025" ≠ Value.dict [] := by
  refine ⟨rfl, rfl, rfl, rfl, ?_⟩
  simp [errV]

/-- C5 (amended): for a string symbol and period, `get_financial_data`
behaves as follows — an unknown symbol yields the error value whatever the
period; for a known symbol, a falsy period (None or the empty string) is
treated as omitted and yields all periods; the literal years "2023" and
"2024" (only those) yield the quarters whose label contains the year; an
exact quarter label yields that single entry; any other non-empty period
yields the error value. -/
theorem get_financial_data_spec (s : String) :
    (lookupV DUMMY_DATA s = none → ∀ per, get_financial_data (Value.str s) per =
        Except.ok (errV ("No data available for symbol " ++ s))) ∧
    (∀ tbl, lookupV DUMMY_DATA s = some tbl →
      get_financial_data (Value.str s) Value.null = Except.ok (Value.dict tbl) ∧
      get_financial_data (Value.str s) (Value.str "") = Except.ok (Value.dict tbl) ∧
      (∀ y : String, (y = "2023" ∨ y = "2024") →
        get_financial_data (Value.str s) (Value.str y) =
          Except.ok (Value.dict (tbl.filter fun q => substrB y q.1))) ∧
      (∀ p d, p ≠ "" → ¬(p = "2023" ∨ p = "2024") → lookupV tbl p = some d →
        get_financial_data (Value.str s) (Value.str p) = Except.ok (Value.dict [(p, d)])) ∧
      (∀ p, p ≠ "" → ¬(p = "2023" ∨ p = "2024") → lookupV tbl p = none →
        get_financial_data (Value.str s) (Value.str p) =
          Except.ok (errV ("No data available for period " ++ p)))) := by
  constructor
  · intro h per
    simp [get_financial_data, h]
  · intro tbl h
    refine ⟨?_, ?_, ?_, ?_, ?_⟩
    · simp [get_financial_data, h, isFalsy]
    · simp [get_financial_data, h, isFalsy, String.isEmpty_iff]
    · intro y hy
      rcases hy with hy | hy <;> subst hy <;>
        simp [get_financial_data, h, isFalsy, String.isEmpty_iff, pyInStrList, pyEqStr]
    · intro p d hne hy hp
      push_neg at hy
      have h1 : (p == "2023") = false := by simpa using hy.1
      have h2 : (p == "2024") = false := by simpa using hy.2
      have he : p.isEmpty = false := by
        rw [Bool.eq_false_iff]
        intro hc
        exact hne ((String.isEmpty_iff p).mp hc)
      simp [get_financial_data, h, isFalsy, pyInStrList, pyEqStr, h1, h2, he, hp]
    · intro p hne hy hp
      push_neg at hy
      have h1 : (p == "2023") = false := by simpa using hy.1
      have h2 : (p == "2024") = false := by simpa using hy.2
      have he : p.isEmpty = false := by
        rw [Bool.eq_false_iff]
        intro hc
        exact hne ((String.isEmpty_iff p).mp hc)
      simp [get_financial_data, h, isFalsy, pyInStrList, pyEqStr, h1, h2, he, hp]

/-- Witness for the amended C5: for AAPL, an omitted period yields the whole
table, the year "2023" yields its four quarters, Q1_2024 yields a single
entry, and an unknown symbol yields the error value. -/
theorem get_financial_data_spec_witness :
    get_financial_data (Value.str "AAPL") Value.null = Except.ok (Value.dict AAPL_data) ∧
    get_financial_data (Value.str "AAPL") (Value.str "2023") =
      Except.ok (Value.dict (AAPL_data.filter fun q => substrB "2023" q.1)) ∧
    get_financial_data (Value.str "AAPL") (Value.str "Q1_2024") =
      Except.ok (Value.dict [("Q1_2024", qd 90.8 24.6 23.1 67.7)]) ∧
    get_financial_data (Value.str "TSLA") Value.null =
      Except.ok (errV "No data available for symbol TSLA") :=
  ⟨((get_financial_data_spec "AAPL").2 AAPL_data rfl).1,
   ((get_financial_data_spec "AAPL").2 AAPL_data rfl).2.2.1 "2023" (Or.inl rfl),
   ((get_financial_data_spec "AAPL").2 AAPL_data rfl).2.2.2.1 "Q1_2024" (qd 90.8 24.6 23.1 67.7)
     (by decide) (by decide) rfl,
   (get_financial_data_spec "TSLA").1 rfl Value.null⟩

/-! ### Context Store lemmas -/

theorem lookupV_setKey_self (ctx : List (String × Value)) (k : String) (v : Value) :
    lookupV (setKey ctx k v) k = some v := by
  induction ctx with
  | nil => simp [setKey, lookupV]
  | cons p rest ih =>
    obtain ⟨k1, v1⟩ := p
    by_cases hk : k1 = k
    · simp [setKey, hk, lookupV]
    · simp [setKey, hk, lookupV, ih]

theorem containsK_setKey {ctx : List (String × Value)} {a : String} (k : String) (v : Value) (h : containsK ctx a = true) : containsK (setKey ctx k v) a = true := by
  induction ctx with
  | nil => simp [containsK, lookupV] at h
  | cons p rest ih =>
    obtain ⟨k1, v1⟩ := p
    simp only [setKey]
    by_cases hk : k1 = k
    · rw [if_pos hk]
      by_cases hka : k = a
      · simp [containsK, lookupV, hka]
      · have hk1a : ¬k1 = a := by rw [hk]; exact hka
        have h2 : containsK rest a = true := by
          simpa [containsK, lookupV, hk1a] using h
        simpa [containsK, lookupV, hka] using h2
    · rw [if_neg hk]
      by_cases hk1a : k1 = a
      · simp [containsK, lookupV, hk1a]
      · have h2 : containsK rest a = true := by
          simpa [containsK, lookupV, hk1a] using h
        simpa [containsK, lookupV, hk1a] using ih h2

theorem containsK_updAll {ctx entries : List (String × Value)} {a : String} (h : containsK ctx a = true) : containsK (updAll ctx entries) a = true := by
  induction entries generalizing ctx with
  | nil => exact h
  | cons e rest ih => exact ih (containsK_setKey e.1 e.2 h)

theorem containsK_applyResult {ctx res : List (String × Value)} {a : String} (h : containsK ctx a = true) : containsK (applyResult ctx res) a = true := by
  induction res generalizing ctx with
  | nil => exact h
  | cons e rest ih =>
    obtain ⟨key, v⟩ := e
    cases v with
    | dict d => exact ih (containsK_updAll h)
    | null => exact ih (containsK_setKey _ _ h)
    | bool b => exact ih (containsK_setKey _ _ h)
    | num q => exact ih (containsK_setKey _ _ h)
    | str s => exact ih (containsK_setKey _ _ h)
    | list xs => exact ih (containsK_setKey _ _ h)

/-- C9: `execute_action` wraps every value a known tool returns — including
the `{"error": ...}` domain-error dicts — in a success result keyed by the
function name; `success = False` arises exactly for an unknown function
name or a raised exception; and when the loop driver merges a domain-error
result, the error text lands in the Context Store under the key
`<function_name>_error`. -/
theorem execute_action_spec :
    (∀ fn params res, dispatch fn params = some (Except.ok res) →
      execute_action fn params = ⟨true, [(fn, res)], fn ++ " executed."⟩) ∧
    (∀ fn params, (execute_action fn params).success = false ↔
      (dispatch fn params = none ∨ ∃ e, dispatch fn params = some (Except.error e))) ∧
    (∀ fn params, dispatch fn params = none ↔ fn ∉ allowedFns) ∧
    (∀ ctx fn msg,
      lookupV (applyResult ctx [(fn, Value.dict [("error", Value.str msg)])]) (fn ++ "_error") =
        some (Value.str msg)) := by
  refine ⟨?_, ?_, ?_, ?_⟩
  · intro fn params res h
    simp [execute_action, h]
  · intro fn params
    cases hd : dispatch fn params with
    | none => simp [execute_action, hd]
    | some r =>
      cases r with
      | ok v => simp [execute_action, hd]
      | error e => simp [execute_action, hd]
  · intro fn params
    simp only [dispatch, allowedFns]
    split_ifs with h1 h2 h3 h4 <;> simp_all
  · intro ctx fn msg
    have hu : ("_" : String) ++ "error" = "_error" := rfl
    have ha : fn ++ "_" ++ "error" = fn ++ "_error" := by
      rw [String.append_assoc, hu]
    simp only [applyResult, flattenDict, updAll, List.append_nil, ha]
    exact lookupV_setKey_self ctx (fn ++ "_error") (Value.str msg)

/-- Witness for C9: a mismatched-lengths call to `calculate_roi` produces a
success result carrying the domain-error dict, and merging it stores the
error text under `calculate_roi_error`. -/
theorem execute_action_spec_witness :
    execute_action "calculate_roi"
        [("revenue", Value.list [Value.num 1, Value.num 2]), ("investment", Value.list [Value.num 1])] =
      ⟨true, [("calculate_roi", errV "Revenue and investment lists must be the same length")],
        "calculate_roi executed."⟩ ∧
    lookupV (applyResult []
        [("calculate_roi", Value.dict [("error", Value.str "Revenue and investment lists must be the same length")])])
        ("calculate_roi" ++ "_error") =
      some (Value.str "Revenue and investment lists must be the same length") :=
  ⟨execute_action_spec.1 "calculate_roi" _ _ rfl,
   execute_action_spec.2.2.2 [] "calculate_roi" "Revenue and investment lists must be the same length"⟩

/-- One loop iteration appends exactly one step and never removes a
Context Store key. -/
theorem loopStep_mono (st : LoopState) (inp : IterInput) (st2 : LoopState) (h : loopStep st inp = some st2) :
    (∃ s, st2.executed = st.executed ++ [s]) ∧
    (∀ a, containsK st.context a = true → containsK st2.context a = true) := by
  simp only [loopStep] at h
  split at h
  · exact absurd h (by simp)
  · split at h
    · exact absurd h (by simp)
    · split at h
      · exact absurd h (by simp)
      · rw [Option.some.injEq] at h
        subst h
        refine ⟨⟨_, rfl⟩, ?_⟩
        intro a ha
        show containsK (if _ then applyResult st.context _ else st.context) a = true
        split
        · exact containsK_applyResult ha
        · exact ha

/-- C8: across a whole run of the loop driver the executed-steps sequence
only grows at its end (each continuing iteration appends exactly one step,
none is removed or reordered) and the Context Store never loses a key. -/
theorem loop_monotone (st : LoopState) (trace : List IterInput) :
    (∃ tail, (runLoop st trace).executed = st.executed ++ tail) ∧
    (∀ a, containsK st.context a = true → containsK (runLoop st trace).context a = true) ∧
    (∀ inp st2, loopStep st inp = some st2 → ∃ s, st2.executed = st.executed ++ [s]) := by
  induction trace generalizing st with
  | nil =>
    exact ⟨⟨[], by simp [runLoop]⟩, fun a h => h,
      fun inp st2 h => (loopStep_mono st inp st2 h).1⟩
  | cons inp rest ih =>
    refine ⟨?_, ?_, fun inp2 st2 h => (loopStep_mono st inp2 st2 h).1⟩
    · cases hs : loopStep st inp with
      | none => exact ⟨[], by simp [runLoop, hs]⟩
      | some st2 =>
        obtain ⟨s, hex⟩ := (loopStep_mono st inp st2 hs).1
        obtain ⟨tail, htail⟩ := (ih st2).1
        exact ⟨[s] ++ tail, by simp [runLoop, hs, htail, hex]⟩
    · intro a ha
      cases hs : loopStep st inp with
      | none => simpa [runLoop, hs] using ha
      | some st2 =>
        have h2 := (loopStep_mono st inp st2 hs).2 a ha
        have h3 := (ih st2).2.1 a h2
        simpa [runLoop, hs] using h3

/-- Witness for C8 on a one-iteration trace: the pre-seeded inflation-rates
key survives the iteration. -/
theorem loop_monotone_witness :
    containsK (runLoop loopWitnessState loopWitnessTrace).context "inflation_rates_2024" = true :=
  (loop_monotone loopWitnessState loopWitnessTrace).2.1 "inflation_rates_2024" (by decide)

/-! ### Parameter Resolver lemmas -/

theorem lookupV_none_of_not_containsK {α : Type} {ctx : List (String × α)} {k : String} (h : containsK ctx k = false) : lookupV ctx k = none := by
  unfold containsK at h
  cases hl : lookupV ctx k with
  | none => rfl
  | some w => rw [hl] at h; simp at h

theorem map_self {l : List (String × Value)} {f : String × Value → String × Value} (h : ∀ p ∈ l, f p = p) : l.map f = l := by
  induction l with
  | nil => rfl
  | cons p rest ih =>
    rw [List.map_cons, h p (by simp), ih fun q hq => h q (by simp [hq])]

theorem map_fst_keep {l : List (String × Value)} {f : String × Value → String × Value} (hf : ∀ p, (f p).1 = p.1) : (l.map f).map Prod.fst = l.map Prod.fst := by
  induction l with
  | nil => rfl
  | cons p rest ih => simp [hf p, ih]

theorem lookupV_map_keep {l : List (String × Value)} {f : String × Value → String × Value} (hf : ∀ p, (f p).1 = p.1) {k : String} {v : Value} (h : lookupV l k = some v) :
    lookupV (l.map f) k = some (f (k, v)).2 := by
  induction l with
  | nil => simp [lookupV] at h
  | cons p rest ih =>
    obtain ⟨k1, v1⟩ := p
    rw [List.map_cons]
    by_cases hk : k1 = k
    · subst hk
      have hv : v1 = v := by simpa [lookupV] using h
      subst hv
      have hfst := hf (k1, v1)
      cases hq : f (k1, v1) with
      | mk a b =>
        rw [hq] at hfst
        simp only at hfst
        subst hfst
        simp [lookupV]
    · have h2 : lookupV rest k = some v := by simpa [lookupV, hk] using h
      have hfst := hf (k1, v1)
      cases hq : f (k1, v1) with
      | mk a b =>
        rw [hq] at hfst
        simp only at hfst
        subst hfst
        simp [lookupV, hk, ih h2]

theorem earlyEntry_fst (resolved : List (String × Value)) (p : String × Value) :
    (earlyEntry resolved p).1 = p.1 := rfl

theorem mergeEntry_fst (resolved llmr : List (String × Value)) (p : String × Value) :
    (mergeEntry resolved llmr p).1 = p.1 := by
  unfold mergeEntry
  cases lookupV resolved p.1 with
  | some w => rfl
  | none =>
    cases lookupV llmr p.1 with
    | none => rfl
    | some w => cases w <;> rfl

theorem resolvedEntry_fst (context : List (String × Value)) :
    ∀ p q, resolvedEntry context p = some q → q.1 = p.1 := by
  intro p q h
  obtain ⟨k, v⟩ := p
  cases v with
  | str s =>
    simp only [resolvedEntry] at h
    cases hl : lookupV context s with
    | none =>
      rw [hl] at h
      exact absurd h (by simp)
    | some w =>
      rw [hl] at h
      have h2 : (k, w) = q := by simpa using h
      rw [← h2]
  | list xs =>
    simp only [resolvedEntry, Option.some.injEq] at h
    rw [← h]
  | null => simp [resolvedEntry] at h
  | bool b => simp [resolvedEntry] at h
  | num n => simp [resolvedEntry] at h
  | dict d => simp [resolvedEntry] at h

theorem resolvedEntry_escalated {context : List (String × Value)} {k : String} {v : Value} (h : escalatedB context v = true) :
    resolvedEntry context (k, v) = none := by
  cases v with
  | str s =>
    have hc : containsK context s = false := by simpa [escalatedB] using h
    simp [resolvedEntry, lookupV_none_of_not_containsK hc]
  | list xs => simp [escalatedB] at h
  | null => rfl
  | bool b => rfl
  | num n => rfl
  | dict d => rfl

theorem getElems_hash {context : List (String × Value)} {xs : List Value} (h : ∀ x ∈ xs, hashableElem x = true) :
    getElems context xs = Except.ok (xs.map (elemGet context)) := by
  induction xs with
  | nil => rfl
  | cons x xs ih =>
    have hx := h x (by simp)
    have hxs : ∀ y ∈ xs, hashableElem y = true := fun y hy => h y (by simp [hy])
    have hcg : ctxGet context x = Except.ok (elemGet context x) := by
      cases x <;> simp_all [ctxGet, elemGet, hashableElem]
    simp [getElems, hcg, ih hxs]

theorem splitResolve_char (context params : List (String × Value))
    (hh : ∀ p ∈ params, listHashable p.2 = true) :
    splitResolve context params =
      Except.ok (params.filterMap (resolvedEntry context),
                 params.filter fun p => escalatedB context p.2) := by
  induction params with
  | nil => rfl
  | cons p rest ih =>
    obtain ⟨k, v⟩ := p
    have hrest : ∀ q ∈ rest, listHashable q.2 = true := fun q hq => hh q (by simp [hq])
    have ihr := ih hrest
    cases v with
    | str s =>
      by_cases hc : containsK context s
      · obtain ⟨w, hw⟩ := Option.isSome_iff_exists.mp hc
        simp [splitResolve, hc, ihr, List.filterMap_cons, List.filter_cons,
          resolvedEntry, escalatedB, hw]
      · have hcf : containsK context s = false := Bool.eq_false_iff.mpr hc
        simp [splitResolve, hcf, ihr, List.filterMap_cons, List.filter_cons,
          resolvedEntry, escalatedB, lookupV_none_of_not_containsK hcf]
    | list xs =>
      have hx : ∀ x ∈ xs, hashableElem x = true := by
        have := hh (k, Value.list xs) (by simp)
        simpa [listHashable] using this
      simp [splitResolve, getElems_hash hx, ihr, List.filterMap_cons, List.filter_cons,
        resolvedEntry, escalatedB]
    | null =>
      simp [splitResolve, ihr, List.filterMap_cons, List.filter_cons, resolvedEntry, escalatedB]
    | bool b =>
      simp [splitResolve, ihr, List.filterMap_cons, List.filter_cons, resolvedEntry, escalatedB]
    | num n =>
      simp [splitResolve, ihr, List.filterMap_cons, List.filter_cons, resolvedEntry, escalatedB]
    | dict d =>
      simp [splitResolve, ihr, List.filterMap_cons, List.filter_cons, resolvedEntry, escalatedB]

theorem resolver_eq (params context : List (String × Value)) (llm : LLMFn)
    (hh : ∀ p ∈ params, listHashable p.2 = true) :
    resolve_params_with_llm params context llm = Except.ok (resolverOut params context llm) := by
  unfold resolve_params_with_llm resolverOut
  rw [splitResolve_char context params hh]
  by_cases hc : ((params.filter fun p => escalatedB context p.2).isEmpty || context.isEmpty) = true
  · simp [hc]
  · simp [hc]

theorem llmResultOf_null {llm : LLMFn} (hllm : ∀ u r, llm u = Except.ok r → ∀ q ∈ r, q.2 = Value.null) (u : List (String × Value)) {k : String} {w : Value} (h : lookupV (llmResultOf llm u) k = some w) : w = Value.null := by
  unfold llmResultOf at h
  cases hl : llm u with
  | error e => rw [hl] at h; simp [lookupV] at h
  | ok r =>
    rw [hl] at h
    exact hllm u r hl (k, w) (lookupV_mem h)

/-- C3 counterexample: the resolver raises (TypeError, from hashing an
unhashable list element in `context.get(x, x)`) instead of returning a
mapping, so it is not total over every parameter mapping. -/
theorem resolver_raises_cex :
    resolve_params_with_llm [("data", Value.list [Value.list []])] []
        (fun _ => Except.ok []) =
      Except.error "TypeError: unhashable type list" := rfl

/-- C3 (amended): for parameter mappings with distinct keys whose list
values contain only hashable elements (a nested list/dict element makes
the code raise — see the counterexample), the resolver returns a mapping
whose key set is exactly that of the input; a value resolved from the
context in step 1 is kept whatever the collaborator answers (in particular
it is never overwritten by a null response); and an escalated parameter
takes the collaborator answer only when it is non-null, otherwise it
keeps the original literal. -/
theorem resolver_keys_and_merge (params context : List (String × Value)) (llm : LLMFn)
    (hh : ∀ p ∈ params, listHashable p.2 = true)
    (hnd : (params.map Prod.fst).Nodup) :
    resolve_params_with_llm params context llm = Except.ok (resolverOut params context llm) ∧
    (resolverOut params context llm).map Prod.fst = params.map Prod.fst ∧
    (∀ k s w, lookupV params k = some (Value.str s) → lookupV context s = some w →
      lookupV (resolverOut params context llm) k = some w) ∧
    (∀ k v, lookupV params k = some v → escalatedB context v = true →
      lookupV (resolverOut params context llm) k = some (
        if context.isEmpty then v
        else
          match lookupV (llmResultOf llm (params.filter fun p => escalatedB context p.2)) k with
          | some Value.null => v
          | some w => w
          | none => v)) := by
  refine ⟨resolver_eq params context llm hh, ?_, ?_, ?_⟩
  · unfold resolverOut
    split
    · unfold earlyMerge
      exact map_fst_keep fun p => rfl
    · unfold mergeParams
      exact map_fst_keep (mergeEntry_fst _ _)
  · intro k s w hk hw
    have hR : lookupV (params.filterMap (resolvedEntry context)) k = some w := by
      rw [lookupV_filterMap (resolvedEntry_fst context) hnd hk]
      simp [resolvedEntry, hw]
    unfold resolverOut
    split
    · unfold earlyMerge
      rw [lookupV_map_keep (earlyEntry_fst _) hk]
      simp [earlyEntry, hR]
    · unfold mergeParams
      rw [lookupV_map_keep (mergeEntry_fst _ _) hk]
      simp [mergeEntry, hR]
  · intro k v hk hesc
    have hmem : (k, v) ∈ params := lookupV_mem hk
    have hRnone : lookupV (params.filterMap (resolvedEntry context)) k = none := by
      rw [lookupV_filterMap (resolvedEntry_fst context) hnd hk, resolvedEntry_escalated hesc]
      rfl
    have hinU : (k, v) ∈ params.filter (fun p => escalatedB context p.2) :=
      List.mem_filter.mpr ⟨hmem, hesc⟩
    have hUne : (params.filter fun p => escalatedB context p.2).isEmpty = false := by
      cases hfe : params.filter (fun p => escalatedB context p.2) with
      | nil => rw [hfe] at hinU; simp at hinU
      | cons a l => rfl
    unfold resolverOut
    simp only [hUne, Bool.false_or]
    by_cases hce : context.isEmpty
    · rw [if_pos hce, if_pos hce]
      unfold earlyMerge
      rw [lookupV_map_keep (earlyEntry_fst _) hk]
      simp [earlyEntry, hRnone]
    · rw [if_neg hce, if_neg (by simpa using hce)]
      unfold mergeParams
      rw [lookupV_map_keep (mergeEntry_fst _ _) hk]
      cases hL : lookupV (llmResultOf llm (params.filter fun p => escalatedB context p.2)) k with
      | none => simp [mergeEntry, hRnone, hL]
      | some w => cases w <;> simp [mergeEntry, hRnone, hL]

/-- Witness for the amended C3 on a two-parameter mapping: the resolver
returns successfully and preserves the key set. -/
theorem resolver_keys_and_merge_witness :
    resolve_params_with_llm [("symbol", Value.str "AAPL"), ("revenue", Value.num 1)]
        [("r", Value.num 2)] (fun _ => Except.ok []) =
      Except.ok (resolverOut [("symbol", Value.str "AAPL"), ("revenue", Value.num 1)]
        [("r", Value.num 2)] (fun _ => Except.ok [])) ∧
    (resolverOut [("symbol", Value.str "AAPL"), ("revenue", Value.num 1)]
        [("r", Value.num 2)] (fun _ => Except.ok [])).map Prod.fst =
      ([("symbol", Value.str "AAPL"), ("revenue", Value.num 1)] :
        List (String × Value)).map Prod.fst :=
  ⟨(resolver_keys_and_merge _ _ _ (by decide) (by decide)).1,
   (resolver_keys_and_merge _ _ _ (by decide) (by decide)).2.1⟩

/-! ### Idempotence of the resolver (C2) -/

theorem fullyResolved_hashable {context : List (String × Value)} {v : Value} (h : fullyResolvedV context v = true) : listHashable v = true := by
  cases v with
  | list xs =>
    simp only [fullyResolvedV, List.all_eq_true] at h
    simp only [listHashable, List.all_eq_true]
    intro x hx
    have hex := h x hx
    cases x <;> simp_all [hashableElem, elemResolvedB]
  | str s => rfl
  | null => rfl
  | bool b => rfl
  | num n => rfl
  | dict d => rfl

theorem elemGet_id {context : List (String × Value)} {x : Value} (h : elemResolvedB context x = true) : elemGet context x = x := by
  cases x with
  | str s =>
    have hc : containsK context s = false := by simpa [elemResolvedB] using h
    simp [elemGet, lookupV_none_of_not_containsK hc]
  | list xs => simp [elemResolvedB] at h
  | dict d => simp [elemResolvedB] at h
  | null => rfl
  | bool b => rfl
  | num n => rfl

theorem map_elemGet_id {context : List (String × Value)} {xs : List Value} (h : ∀ x ∈ xs, elemResolvedB context x = true) : xs.map (elemGet context) = xs := by
  induction xs with
  | nil => rfl
  | cons x xs ih =>
    rw [List.map_cons, elemGet_id (h x (by simp)), ih fun y hy => h y (by simp [hy])]

theorem resolvedEntry_full {context : List (String × Value)} {p : String × Value} (hf : fullyResolvedV context p.2 = true) :
    resolvedEntry context p = none ∨ resolvedEntry context p = some p := by
  obtain ⟨k, v⟩ := p
  cases v with
  | str s =>
    left
    have hc : containsK context s = false := by simpa [fullyResolvedV] using hf
    simp [resolvedEntry, lookupV_none_of_not_containsK hc]
  | list xs =>
    right
    have hx : ∀ x ∈ xs, elemResolvedB context x = true := by
      simpa [fullyResolvedV, List.all_eq_true] using hf
    simp [resolvedEntry, map_elemGet_id hx]
  | null => left; rfl
  | bool b => left; rfl
  | num n => left; rfl
  | dict d => left; rfl

/-- C2 counterexample, two failure modes of idempotence as claimed.
First: a mapping that is already fully resolved (the value 5 is a concrete
number, not a placeholder) is NOT returned unchanged when the context is
non-empty — the concrete value is escalated to the collaborator and a
non-null collaborator answer overwrites it.  Second: a mapping whose value
is a list with a nested-list element (a concrete value, not a placeholder)
makes the resolver raise TypeError instead of returning anything at all,
even against an empty context and a null-answering collaborator, because
`context.get(x, x)` hashes the element before any lookup. -/
theorem resolver_not_idempotent_cex :
    (resolve_params_with_llm [("rate", Value.num 5)] [("x", Value.num 1)]
        (fun _ => Except.ok [("rate", Value.num 7)]) =
      Except.ok [("rate", Value.num 7)] ∧
    fullyResolvedV [("x", Value.num 1)] (Value.num 5) = true ∧
    Value.num 7 ≠ Value.num 5) ∧
    resolve_params_with_llm [("vals", Value.list [Value.list [Value.num 1]])] []
        (fun _ => Except.ok []) =
      Except.error "TypeError: unhashable type list" := by
  refine ⟨⟨rfl, rfl, ?_⟩, rfl⟩
  intro h
  injection h with h2
  norm_num at h2

/-- C2 (amended): resolving an already-fully-resolved parameter mapping —
distinct keys, every value either a non-placeholder scalar (not a string
naming a context key) or a list of hashable scalar elements none of which
names a context key — against the same context returns it unchanged
PROVIDED the semantic-matching collaborator answers null (or omits the
key, or fails) for every escalated parameter — in particular whenever
nothing is escalated or the context is empty.  Both restrictions are
forced by the counterexample: a non-null collaborator answer overwrites
even an already-concrete scalar value, and a nested list/dict element
makes the resolver raise TypeError instead of returning. -/
theorem resolver_idempotent_amended (params context : List (String × Value)) (llm : LLMFn)
    (hnd : (params.map Prod.fst).Nodup)
    (hfull : ∀ p ∈ params, fullyResolvedV context p.2 = true)
    (hllm : ∀ u r, llm u = Except.ok r → ∀ q ∈ r, q.2 = Value.null) :
    resolve_params_with_llm params context llm = Except.ok params := by
  have hh : ∀ p ∈ params, listHashable p.2 = true :=
    fun p hp => fullyResolved_hashable (hfull p hp)
  rw [resolver_eq params context llm hh]
  have hentry : ∀ p ∈ params,
      lookupV (params.filterMap (resolvedEntry context)) p.1 = none ∨
      lookupV (params.filterMap (resolvedEntry context)) p.1 = some p.2 := by
    intro p hp
    have hlk : lookupV params p.1 = some p.2 :=
      lookupV_of_mem_nodup hnd (by rw [Prod.mk.eta]; exact hp)
    rw [lookupV_filterMap (resolvedEntry_fst context) hnd hlk]
    rcases resolvedEntry_full (p := p) (hfull p hp) with h1 | h1
    · left
      rw [show ((p.1, p.2) : String × Value) = p from Prod.mk.eta, h1]
      rfl
    · right
      rw [show ((p.1, p.2) : String × Value) = p from Prod.mk.eta, h1]
      rfl
  have hout : resolverOut params context llm = params := by
    unfold resolverOut
    split
    · unfold earlyMerge
      apply map_self
      intro p hp
      rcases hentry p hp with h1 | h1 <;> simp [earlyEntry, h1]
    · unfold mergeParams
      apply map_self
      intro p hp
      rcases hentry p hp with h1 | h1
      · simp only [mergeEntry, h1]
        cases hL : lookupV (llmResultOf llm (params.filter fun q => escalatedB context q.2)) p.1 with
        | none => simp [hL]
        | some w =>
          have hw := llmResultOf_null hllm _ hL
          subst hw
          simp [hL]
      · simp [mergeEntry, h1]
  rw [hout]

/-- Witness for the amended C2: a fully-resolved singleton mapping against
the empty context comes back unchanged. -/
theorem resolver_idempotent_amended_witness :
    resolve_params_with_llm [("rate", Value.num 5)] [] (fun _ => Except.ok []) =
      Except.ok [("rate", Value.num 5)] :=
  resolver_idempotent_amended _ _ _ (by decide) (by decide)
    (by
      intro u r hr q hq
      simp only [Except.ok.injEq] at hr
      subst hr
      simp at hq)

end FinanceAgent
